import Mathlib

/-!
Shallow embedding of the Tiny Ray Caster (src/Tiny_RR_005.ino).

The source is Arduino C++ operating on global state:
  - a 10x10 occupancy grid `my_map` (char cells, 0 = empty),
  - a player pose (`player_x`, `player_y`, `player_bearing`),
  - screen constants (`screen_width = 128`, `screen_height = 64`,
    `NUM_SLIVERS = screen_width`, `FOV = 90`, `theta_inc = FOV / NUM_SLIVERS`).

Modelling choices:
  - C `float` arithmetic is embedded in `ℚ`.  The platform's `cos`/`sin`
    (libm floats, composed with the degree-to-radian conversion
    `theta * PI / 180.0` that only ever feeds them) are modelled as an
    oracle parameter `T : Trig`, `T θ = (cos of θ degrees, sin of θ degrees)`
    as the library computes them.  Theorems quantify over every oracle, and
    the one property that genuinely needs trigonometry (the Pythagorean
    identity) is taken as an explicit hypothesis where required.
  - The C cast `(int)` on a float truncates toward zero: `ctrunc`.
  - `my_map` is a `char[10][10]`; an out-of-range read is undefined
    behaviour in C, so the grid is modelled as a total function
    `ℤ → ℤ → ℤ` (the value read from whatever memory the index names).
  - The counted/while loops of the scan are structural recursions on a
    fuel argument equal to the starting wall height, which dominates the
    iteration count (the height strictly decreases by 2 each iteration),
    so every definition evaluates by `decide` / `rfl`.
-/

namespace TinyRC

/-- Source line 58: #define MAP_X_DIM 10. -/
def MAP_X_DIM : ℤ := 10

/-- Source line 59: #define MAP_Y_DIM 10. -/
def MAP_Y_DIM : ℤ := 10

/-- Source lines 40, 65: screen_width = SCREEN_WIDTH = 128. -/
def screen_width : ℕ := 128

/-- Source lines 41, 66: screen_height = SCREEN_HEIGHT = 64. -/
def screen_height : ℕ := 64

/-- Source line 70: const int NUM_SLIVERS = screen_width. -/
def NUM_SLIVERS : ℕ := screen_width

/-- Source line 71: const float FOV = 90.0. -/
def FOV : ℚ := 90

/-- Source line 72: const float theta_inc = FOV / NUM_SLIVERS. -/
def theta_inc : ℚ := FOV / (NUM_SLIVERS : ℚ)

/-- Trig oracle: degrees to the (cosine, sine) pair the platform's float
`cos(θ*PI/180)` / `sin(θ*PI/180)` return.  An explicit parameter because
libm float trig is not exactly real trigonometry. -/
def Trig : Type := ℚ → ℚ × ℚ

/-- The C cast `(int)` applied to a float value: truncation toward zero.
On a reduced fraction (positive denominator) integer t-division of the
numerator by the denominator rounds toward zero, which is exactly the C
semantics. -/
def ctrunc (q : ℚ) : ℤ := q.num.tdiv q.den

/-- The grid `my_map` (source line 80), as the total memory-read function:
indices inside [0,10) x [0,10) are the declared array, anything else is
whatever an out-of-bounds C read would return. -/
def GridMap : Type := ℤ → ℤ → ℤ

/-- Player pose: the globals player_x, player_y, player_bearing
(source lines 85-89). -/
structure Pose where
  x : ℚ
  y : ℚ
  bearing : ℚ
deriving DecidableEq

/-- The candidate position `(player_x_new, player_y_new)` computed by
`step_forward` (source lines 233-239): position plus
`distance * (cos theta_radians, sin theta_radians)`. -/
def step_candidate (T : Trig) (p : Pose) (distance : ℚ) : ℚ × ℚ :=
  (p.x + distance * (T p.bearing).1, p.y + distance * (T p.bearing).2)

/-- The pair of indices at which the guard of `step_forward` reads
`my_map` (source line 240: `my_map[(int)player_x_new][(int)player_y_new]`).
In the C source this read is the first operand of `&&`, so it is evaluated
before the four range tests that follow it. -/
def step_lookup (T : Trig) (p : Pose) (distance : ℚ) : ℤ × ℤ :=
  (ctrunc (step_candidate T p distance).1, ctrunc (step_candidate T p distance).2)

/-- The acceptance condition of `step_forward` (source lines 240-244):
map cell at the truncated candidate is 0, and the candidate is strictly
inside (0, MAP_X_DIM) x (0, MAP_Y_DIM). -/
def step_accepts (T : Trig) (m : GridMap) (p : Pose) (distance : ℚ) : Prop :=
  m (step_lookup T p distance).1 (step_lookup T p distance).2 = 0 ∧
  0 < (step_candidate T p distance).1 ∧
  0 < (step_candidate T p distance).2 ∧
  (step_candidate T p distance).1 < (MAP_X_DIM : ℚ) ∧
  (step_candidate T p distance).2 < (MAP_Y_DIM : ℚ)

instance (T : Trig) (m : GridMap) (p : Pose) (distance : ℚ) :
    Decidable (step_accepts T m p distance) := by
  unfold step_accepts; infer_instance

/-- step_forward (source lines 231-256): commit the candidate position if
the guard accepts, otherwise leave the pose unchanged (the else branch
only prints and beeps). -/
def step_forward (T : Trig) (m : GridMap) (p : Pose) (distance : ℚ) : Pose :=
  if step_accepts T m p distance then
    { p with
        x := (step_candidate T p distance).1
        y := (step_candidate T p distance).2 }
  else p

/-- step_backward (source lines 258-261). -/
def step_backward (T : Trig) (m : GridMap) (p : Pose) (distance : ℚ) : Pose :=
  step_forward T m p (-distance)

/-- turn_left (source lines 263-266): player_bearing -= speed. -/
def turn_left (p : Pose) (speed : ℚ) : Pose :=
  { p with bearing := p.bearing - speed }

/-- turn_right (source lines 268-271): player_bearing += speed. -/
def turn_right (p : Pose) (speed : ℚ) : Pose :=
  { p with bearing := p.bearing + speed }

/-- strafe_left (source lines 273-278). -/
def strafe_left (T : Trig) (m : GridMap) (p : Pose) (distance : ℚ) : Pose :=
  turn_right (step_forward T m (turn_left p 90) distance) 90

/-- strafe_right (source lines 280-285). -/
def strafe_right (T : Trig) (m : GridMap) (p : Pose) (distance : ℚ) : Pose :=
  turn_left (step_forward T m (turn_right p 90) distance) 90

/-- Source line 473 with line 472's `float k = 1`: the radius sampled at a
given wall height, `r = (k * screen_height) / wall_height`. -/
def radius (wall_height : ℕ) : ℚ :=
  (1 * (screen_height : ℚ)) / (wall_height : ℚ)

/-- Source lines 475-476: the point sampled along the ray at a wall
height, `(player_x + r*cos(theta_radians), player_y + r*sin(theta_radians))`. -/
def sample_point (T : Trig) (px py θ : ℚ) (wall_height : ℕ) : ℚ × ℚ :=
  (px + radius wall_height * (T θ).1, py + radius wall_height * (T θ).2)

/-- The hit condition of `ray_cast` (source lines 479-480):
`x < 0 || y < 0 || x >= MAP_X_DIM || y >= MAP_Y_DIM || my_map[(int)x][(int)y] != 0`.
The `||` short-circuits, so the map is read only at in-range indices. -/
def hit_test (m : GridMap) (x y : ℚ) : Prop :=
  x < 0 ∨ y < 0 ∨ (MAP_X_DIM : ℚ) ≤ x ∨ (MAP_Y_DIM : ℚ) ≤ y ∨
    m (ctrunc x) (ctrunc y) ≠ 0

instance (m : GridMap) (x y : ℚ) : Decidable (hit_test m x y) := by
  unfold hit_test; infer_instance

/-- The hit condition evaluated at the point sampled for a wall height. -/
def column_hit (T : Trig) (m : GridMap) (px py θ : ℚ) (wall_height : ℕ) : Prop :=
  hit_test m (sample_point T px py θ wall_height).1 (sample_point T px py θ wall_height).2

instance (T : Trig) (m : GridMap) (px py θ : ℚ) (wall_height : ℕ) :
    Decidable (column_hit T m px py θ wall_height) := by
  unfold column_hit; infer_instance

/-- The inner scan loop of `ray_cast` (source lines 470-500):
`for (float wall_height = screen_height; wall_height > 0; wall_height -= 2)`,
breaking with the current `(r, wall_height)` at the first hit ( the value
stored into `d[sliver]` and passed to `render_sliver`), `none` if the loop
exhausts.  The fuel argument is an upper bound on the iteration count. -/
def scanColumnAux (T : Trig) (m : GridMap) (px py θ : ℚ) :
    ℕ → ℕ → Option (ℚ × ℕ)
  | 0, _ => none
  | fuel + 1, wall_height =>
    if 0 < wall_height then
      if column_hit T m px py θ wall_height then
        some (radius wall_height, wall_height)
      else
        scanColumnAux T m px py θ fuel (wall_height - 2)
    else none

/-- One column of `ray_cast`, starting at a given wall height. -/
def scan_column (T : Trig) (m : GridMap) (px py θ : ℚ) (wall_height : ℕ) :
    Option (ℚ × ℕ) :=
  scanColumnAux T m px py θ wall_height wall_height

/-- The successive wall-height values the scan loop's body runs with,
starting from a given height: the loop samples the height exactly while it
is positive, decrementing by 2. -/
def scanHeightsAux : ℕ → ℕ → List ℕ
  | 0, _ => []
  | fuel + 1, h => if 0 < h then h :: scanHeightsAux fuel (h - 2) else []

/-- Wall heights sampled by one column scan of `ray_cast`. -/
def scanHeights (h : ℕ) : List ℕ := scanHeightsAux h h

/-- The globals `ray_cast` touches: the grid and the player pose. -/
structure RCState where
  my_map : GridMap
  player_x : ℚ
  player_y : ℚ
  player_bearing : ℚ

/-- The sliver loop of `ray_cast` (source lines 466-502), threading the
global state through each column and collecting each column's result
(the `(d[sliver], wall_height)` pair handed to `render_sliver`, `none`
when the column registered no hit).  `theta += theta_inc` at the end of
each iteration. -/
def rayCastAux (T : Trig) : ℕ → RCState → ℚ → RCState × List (Option (ℚ × ℕ))
  | 0, st, _ => (st, [])
  | n + 1, st, θ =>
    let colRes := scan_column T st.my_map st.player_x st.player_y θ screen_height
    let rest := rayCastAux T n st (θ + theta_inc)
    (rest.1, colRes :: rest.2)

/-- ray_cast (source lines 461-503): `theta` starts at
`player_bearing - FOV/2` and NUM_SLIVERS columns are scanned. -/
def ray_cast (T : Trig) (st : RCState) : RCState × List (Option (ℚ × ℕ)) :=
  rayCastAux T NUM_SLIVERS st (st.player_bearing - FOV / 2)

/-- The wall height an observer reads off a column result: the recorded
height of the hit, or 0 (empty/background column, nothing drawn) when the
scan exhausted with no hit. -/
def wall_height_of : Option (ℚ × ℕ) → ℕ
  | none => 0
  | some (_, h) => h

/-- A concrete trig oracle for witnesses: constantly (1, 0), the exact
value real trigonometry takes at bearing 0 degrees. -/
def T_unit : Trig := fun _ => ((1 : ℚ), (0 : ℚ))

/-- A concrete all-empty grid for witnesses. -/
def map_empty : GridMap := fun _ _ => 0

/-- A concrete all-walls grid for witnesses. -/
def map_walls : GridMap := fun _ _ => 1

/-- A degenerate trig oracle (both components zero) exhibiting a column
scan that never hits: the sampled point never leaves the player's cell. -/
def T_zero : Trig := fun _ => ((0 : ℚ), (0 : ℚ))

/-! ### Loop lemmas: the fuel arguments are irrelevant once large enough -/

theorem scanColumnAux_congr (T : Trig) (m : GridMap) (px py θ : ℚ) :
    ∀ f g h, h ≤ f → h ≤ g →
      scanColumnAux T m px py θ f h = scanColumnAux T m px py θ g h := by
  intro f
  induction f with
  | zero =>
    intro g h hf _
    have hh : h = 0 := by omega
    subst hh
    cases g with
    | zero => rfl
    | succ g => simp [scanColumnAux]
  | succ f ih =>
    intro g h hf hg
    cases g with
    | zero =>
      have hh : h = 0 := by omega
      subst hh
      simp [scanColumnAux]
    | succ g =>
      by_cases h0 : 0 < h
      · simp only [scanColumnAux, if_pos h0]
        by_cases hh : column_hit T m px py θ h
        · rw [if_pos hh, if_pos hh]
        · rw [if_neg hh, if_neg hh]
          exact ih g (h - 2) (by omega) (by omega)
      · simp [scanColumnAux, h0]

theorem scan_column_zero (T : Trig) (m : GridMap) (px py θ : ℚ) :
    scan_column T m px py θ 0 = none := rfl

theorem scan_column_unfold (T : Trig) (m : GridMap) (px py θ : ℚ)
    (h : ℕ) (h0 : 0 < h) :
    scan_column T m px py θ h =
      if column_hit T m px py θ h then some (radius h, h)
      else scan_column T m px py θ (h - 2) := by
  obtain ⟨n, rfl⟩ : ∃ n, h = n + 1 := ⟨h - 1, by omega⟩
  show scanColumnAux T m px py θ (n + 1) (n + 1) = _
  simp only [scanColumnAux, if_pos h0]
  by_cases hh : column_hit T m px py θ (n + 1)
  · rw [if_pos hh, if_pos hh]
  · rw [if_neg hh, if_neg hh]
    exact scanColumnAux_congr T m px py θ n (n + 1 - 2) (n + 1 - 2) (by omega) (by omega)

theorem scanHeightsAux_congr :
    ∀ f g h, h ≤ f → h ≤ g → scanHeightsAux f h = scanHeightsAux g h := by
  intro f
  induction f with
  | zero =>
    intro g h hf _
    have hh : h = 0 := by omega
    subst hh
    cases g with
    | zero => rfl
    | succ g => simp [scanHeightsAux]
  | succ f ih =>
    intro g h hf hg
    cases g with
    | zero =>
      have hh : h = 0 := by omega
      subst hh
      simp [scanHeightsAux]
    | succ g =>
      by_cases h0 : 0 < h
      · simp only [scanHeightsAux, if_pos h0]
        rw [ih g (h - 2) (by omega) (by omega)]
      · simp [scanHeightsAux, h0]

theorem scanHeights_zero : scanHeights 0 = [] := rfl

theorem scanHeights_unfold (h : ℕ) (h0 : 0 < h) :
    scanHeights h = h :: scanHeights (h - 2) := by
  obtain ⟨n, rfl⟩ : ∃ n, h = n + 1 := ⟨h - 1, by omega⟩
  show scanHeightsAux (n + 1) (n + 1) = _
  simp only [scanHeightsAux, if_pos h0]
  rw [scanHeightsAux_congr n (n + 1 - 2) (n + 1 - 2) (by omega) (by omega)]
  rfl

/-- Every wall height the scan samples is positive and at most the
starting height. -/
theorem mem_scanHeights : ∀ h x, x ∈ scanHeights h → 0 < x ∧ x ≤ h := by
  intro h
  induction h using Nat.strong_induction_on with
  | _ h ih =>
    intro x hx
    rcases Nat.eq_zero_or_pos h with rfl | h0
    · rw [scanHeights_zero] at hx
      exact absurd hx (List.not_mem_nil x)
    · rw [scanHeights_unfold h h0] at hx
      rcases List.mem_cons.1 hx with rfl | hx
      · exact ⟨h0, le_rfl⟩
      · have := ih (h - 2) (by omega) x hx
        exact ⟨this.1, by omega⟩

/-- The scan-with-break loop returns exactly the first sampled wall height
(in the loop's decreasing order) that satisfies the hit condition,
paired with its derived radius. -/
theorem scan_column_find (T : Trig) (m : GridMap) (px py θ : ℚ) :
    ∀ h, scan_column T m px py θ h =
      ((scanHeights h).find? fun h' => decide (column_hit T m px py θ h')).map
        fun h' => (radius h', h') := by
  intro h
  induction h using Nat.strong_induction_on with
  | _ h ih =>
    rcases Nat.eq_zero_or_pos h with rfl | h0
    · rw [scan_column_zero, scanHeights_zero]
      rfl
    · rw [scan_column_unfold T m px py θ h h0, scanHeights_unfold h h0]
      by_cases hh : column_hit T m px py θ h
      · rw [if_pos hh, List.find?_cons_of_pos _ (by simp [hh])]
        rfl
      · rw [if_neg hh, List.find?_cons_of_neg _ (by simp [hh])]
        exact ih (h - 2) (by omega)

/-- A recorded column hit is at a sampled wall height with its radius. -/
theorem scan_column_some (T : Trig) (m : GridMap) (px py θ : ℚ) (h : ℕ)
    (r : ℚ) (h' : ℕ)
    (hs : scan_column T m px py θ h = some (r, h')) :
    h' ∈ scanHeights h ∧ r = radius h' ∧ column_hit T m px py θ h' := by
  rw [scan_column_find] at hs
  rcases Option.map_eq_some'.1 hs with ⟨h'', hfind, heq⟩
  injection heq with h1 h2
  subst h2
  subst h1
  refine ⟨List.mem_of_find?_eq_some hfind, rfl, ?_⟩
  have := List.find?_some hfind
  simpa using this

/-! ### Lemmas about the sliver loop of ray_cast -/

theorem rayCastAux_fst (T : Trig) :
    ∀ n st θ, (rayCastAux T n st θ).1 = st := by
  intro n
  induction n with
  | zero => intro st θ; rfl
  | succ n ih =>
    intro st θ
    simp only [rayCastAux]
    exact ih st (θ + theta_inc)

theorem rayCastAux_length (T : Trig) :
    ∀ n st θ, (rayCastAux T n st θ).2.length = n := by
  intro n
  induction n with
  | zero => intro st θ; rfl
  | succ n ih =>
    intro st θ
    simp only [rayCastAux, List.length_cons]
    rw [ih st (θ + theta_inc)]

theorem rayCastAux_mem (T : Trig) :
    ∀ n st θ res, res ∈ (rayCastAux T n st θ).2 →
      ∃ θ', res = scan_column T st.my_map st.player_x st.player_y θ' screen_height := by
  intro n
  induction n with
  | zero =>
    intro st θ res hres
    exact absurd hres (List.not_mem_nil res)
  | succ n ih =>
    intro st θ res hres
    simp only [rayCastAux, List.mem_cons] at hres
    rcases hres with rfl | hres
    · exact ⟨θ, rfl⟩
    · exact ih st (θ + theta_inc) res hres

/-- step_forward leaves the bearing untouched in both branches. -/
theorem step_forward_bearing (T : Trig) (m : GridMap) (p : Pose) (d : ℚ) :
    (step_forward T m p d).bearing = p.bearing := by
  unfold step_forward
  split <;> rfl

/-- A point displaced from a position strictly inside the 10x10 map by 32
times a unit vector leaves [0,10) in at least one coordinate: one of the
vector's components has absolute value at least `32/sqrt 2 > 10`. -/
theorem sample_out_of_map (px py c s : ℚ)
    (hcs : c ^ 2 + s ^ 2 = 1)
    (hx0 : 0 < px) (hx1 : px < 10) (hy0 : 0 < py) (hy1 : py < 10) :
    px + 32 * c < 0 ∨ py + 32 * s < 0 ∨ 10 ≤ px + 32 * c ∨ 10 ≤ py + 32 * s := by
  have hcase : (1 : ℚ) / 2 ≤ c ^ 2 ∨ (1 : ℚ) / 2 ≤ s ^ 2 := by
    rcases le_total (c ^ 2) (s ^ 2) with hcc | hcc
    · right; nlinarith
    · left; nlinarith
  rcases hcase with hbig | hbig
  · rcases le_or_lt c 0 with hc | hc
    · have hcb : c ≤ -(5 / 16) := by nlinarith
      left; linarith
    · have hcb : (5 / 16 : ℚ) ≤ c := by nlinarith
      right; right; left; linarith
  · rcases le_or_lt s 0 with hsn | hsn
    · have hsb : s ≤ -(5 / 16) := by nlinarith
      right; left; linarith
    · have hsb : (5 / 16 : ℚ) ≤ s := by nlinarith
      right; right; right; linarith

/-- With a unit-norm trig oracle, the sample taken at wall height 2
(radius 32) always satisfies the hit condition when the player is strictly
inside the map: the point is out of bounds. -/
theorem column_hit_at_two (T : Trig) (m : GridMap) (px py θ : ℚ)
    (hT : ((T θ).1) ^ 2 + ((T θ).2) ^ 2 = 1)
    (hx0 : 0 < px) (hx1 : px < (MAP_X_DIM : ℚ))
    (hy0 : 0 < py) (hy1 : py < (MAP_Y_DIM : ℚ)) :
    column_hit T m px py θ 2 := by
  have hX : (MAP_X_DIM : ℚ) = 10 := by norm_num [MAP_X_DIM]
  have hY : (MAP_Y_DIM : ℚ) = 10 := by norm_num [MAP_Y_DIM]
  have hr : radius 2 = 32 := by norm_num [radius, screen_height]
  unfold column_hit hit_test
  simp only [sample_point, hr, hX, hY]
  rw [hX] at hx1
  rw [hY] at hy1
  have hfar := sample_out_of_map px py (T θ).1 (T θ).2 hT hx0 hx1 hy0 hy1
  tauto

/-- The derived radius is antitone on positive wall heights. -/
theorem radius_antitone (a b : ℕ) (hb : 0 < b) (hba : b ≤ a) :
    radius a ≤ radius b := by
  have hbq : (0 : ℚ) < (b : ℚ) := by exact_mod_cast hb
  have haq : (0 : ℚ) < (a : ℚ) := by
    exact_mod_cast Nat.lt_of_lt_of_le hb hba
  have hle : (b : ℚ) ≤ (a : ℚ) := by exact_mod_cast hba
  unfold radius
  rw [div_le_div_iff₀ haq hbq]
  nlinarith

/-- Along the scan order of the wall heights, the derived radius is
non-decreasing from each sample to the next. -/
theorem scanHeights_radius_chain :
    ∀ h, List.Chain' (fun a b => radius a ≤ radius b) (scanHeights h) := by
  intro h
  induction h using Nat.strong_induction_on with
  | _ h ih =>
    rcases Nat.eq_zero_or_pos h with rfl | h0
    · rw [scanHeights_zero]
      exact List.chain'_nil
    · rw [scanHeights_unfold h h0]
      refine List.chain'_cons'.2 ⟨?_, ih (h - 2) (by omega)⟩
      intro y hy
      have hmem := mem_scanHeights (h - 2) y (List.mem_of_mem_head? hy)
      exact radius_antitone h y hmem.1 (by omega)

/-! ### Settling the claims -/

/-- C1: "for every map-cell lookup ... checked against [0,W) x [0,H)
before the grid is indexed; in particular, step_forward never indexes
my_map with a truncated candidate position lying outside
[0,MAP_X_DIM) x [0,MAP_Y_DIM)".  This FAILS on the code: the guard at
source line 240 reads `my_map[(int)player_x_new][(int)player_y_new]` as
the first operand of `&&`, so the C program evaluates the array read
before the four range tests.  This theorem evaluates the index pair that
read uses at a concrete, game-reachable input — player at (9.95, 5.5),
bearing 0 degrees (cosine 1, sine 0), stepping the walk speed 0.1 — and
shows the first index is MAP_X_DIM, outside the array. -/
theorem claim_C1_step_lookup_out_of_range :
    step_lookup T_unit ⟨199 / 20, 11 / 2, 0⟩ (1 / 10) = (10, 5) ∧
    MAP_X_DIM ≤ (step_lookup T_unit ⟨199 / 20, 11 / 2, 0⟩ (1 / 10)).1 := by
  with_unfolding_all decide

/-- C2: one call to ray_cast produces exactly NUM_SLIVERS column results,
each with wall height in [0, screen_height] (the height is a natural
number, so only the upper bound is substantive), and a column whose scan
exhausts without a hit yields the empty/background column of wall
height 0. -/
theorem claim_C2_sliver_count_and_height_range (T : Trig) (st : RCState) :
    (ray_cast T st).2.length = NUM_SLIVERS ∧
    ∀ res ∈ (ray_cast T st).2,
      wall_height_of res ≤ screen_height ∧ (res = none → wall_height_of res = 0) := by
  constructor
  · exact rayCastAux_length T NUM_SLIVERS st (st.player_bearing - FOV / 2)
  · intro res hres
    obtain ⟨θ', rfl⟩ :=
      rayCastAux_mem T NUM_SLIVERS st (st.player_bearing - FOV / 2) res hres
    constructor
    · cases hsc : scan_column T st.my_map st.player_x st.player_y θ' screen_height with
      | none => exact Nat.zero_le _
      | some v =>
        obtain ⟨r, h'⟩ := v
        have hmem := (scan_column_some T st.my_map st.player_x st.player_y θ'
          screen_height r h' hsc).1
        exact (mem_scanHeights screen_height h' hmem).2
    · intro hnone
      rw [hnone]
      rfl

/-- Witness for C2 at a concrete oracle, map and pose. -/
theorem claim_C2_witness :
    (ray_cast T_unit ⟨map_walls, 11 / 2, 11 / 2, 270⟩).2.length = NUM_SLIVERS ∧
    wall_height_of (some ((1 : ℚ), (64 : ℕ))) ≤ screen_height ∧
    wall_height_of (none : Option (ℚ × ℕ)) = 0 :=
  ⟨(claim_C2_sliver_count_and_height_range T_unit ⟨map_walls, 11 / 2, 11 / 2, 270⟩).1,
   ((claim_C2_sliver_count_and_height_range T_unit ⟨map_walls, 11 / 2, 11 / 2, 270⟩).2
      (some (1, 64)) (by with_unfolding_all decide)).1,
   ((claim_C2_sliver_count_and_height_range T_zero ⟨map_empty, 11 / 2, 11 / 2, 270⟩).2
      none (by with_unfolding_all decide)).2 rfl⟩

/-- C3: an accepted step lands on an empty map cell strictly inside the
(edge-exclusive) open bounds, and a rejected step changes nothing of the
pose (position and bearing included). -/
theorem claim_C3_step_forward_postcondition (T : Trig) (m : GridMap)
    (p : Pose) (d : ℚ) :
    (step_accepts T m p d →
      m (ctrunc (step_forward T m p d).x) (ctrunc (step_forward T m p d).y) = 0 ∧
      0 < (step_forward T m p d).x ∧ (step_forward T m p d).x < (MAP_X_DIM : ℚ) ∧
      0 < (step_forward T m p d).y ∧ (step_forward T m p d).y < (MAP_Y_DIM : ℚ)) ∧
    (¬ step_accepts T m p d → step_forward T m p d = p) := by
  constructor
  · intro hacc
    unfold step_forward
    rw [if_pos hacc]
    obtain ⟨h1, h2, h3, h4, h5⟩ := hacc
    exact ⟨h1, h2, h4, h3, h5⟩
  · intro hrej
    unfold step_forward
    rw [if_neg hrej]

/-- Witness for C3: an accepted step on the empty map and a rejected step
on the all-walls map. -/
theorem claim_C3_witness :
    (map_empty (ctrunc (step_forward T_unit map_empty ⟨11 / 2, 11 / 2, 0⟩ 1).x)
       (ctrunc (step_forward T_unit map_empty ⟨11 / 2, 11 / 2, 0⟩ 1).y) = 0 ∧
     0 < (step_forward T_unit map_empty ⟨11 / 2, 11 / 2, 0⟩ 1).x ∧
     (step_forward T_unit map_empty ⟨11 / 2, 11 / 2, 0⟩ 1).x < (MAP_X_DIM : ℚ) ∧
     0 < (step_forward T_unit map_empty ⟨11 / 2, 11 / 2, 0⟩ 1).y ∧
     (step_forward T_unit map_empty ⟨11 / 2, 11 / 2, 0⟩ 1).y < (MAP_Y_DIM : ℚ)) ∧
    step_forward T_unit map_walls ⟨11 / 2, 11 / 2, 0⟩ 1 = ⟨11 / 2, 11 / 2, 0⟩ :=
  ⟨(claim_C3_step_forward_postcondition T_unit map_empty ⟨11 / 2, 11 / 2, 0⟩ 1).1
     (by with_unfolding_all decide),
   (claim_C3_step_forward_postcondition T_unit map_walls ⟨11 / 2, 11 / 2, 0⟩ 1).2
     (by with_unfolding_all decide)⟩

/-- C4: along the scan of one column the sampled wall heights are
pairwise distinct, there are exactly screen_height/2 of them (so at most
screen_height/2 samples), and the derived radius is non-decreasing from
each sample to the next. -/
theorem claim_C4_radius_monotone_heights_distinct :
    List.Chain' (fun a b => radius a ≤ radius b) (scanHeights screen_height) ∧
    (scanHeights screen_height).Nodup ∧
    (scanHeights screen_height).length = screen_height / 2 := by
  refine ⟨scanHeights_radius_chain screen_height, ?_, ?_⟩ <;> with_unfolding_all decide

/-- C5: a column scan returns exactly the first sampled wall height (in
the loop's decreasing scan order) whose sample point is out of bounds or
on a nonzero cell, paired with the radius derived from it — the pair
stored in d[sliver] and rendered — and scans no further. -/
theorem claim_C5_records_first_hit (T : Trig) (m : GridMap) (px py θ : ℚ)
    (h : ℕ) :
    scan_column T m px py θ h =
      ((scanHeights h).find? fun h' => decide (column_hit T m px py θ h')).map
        fun h' => (radius h', h') :=
  scan_column_find T m px py θ h

/-- C6: the scan loop starting at screen_height and decrementing by 2
evaluates its body (and hence the division by wall_height) only at
positive wall heights, and it does sample the final positive value 2 —
the loop excludes 0 exactly. -/
theorem claim_C6_loop_excludes_zero :
    (∀ h ∈ scanHeights screen_height, 0 < h) ∧ 2 ∈ scanHeights screen_height := by
  with_unfolding_all decide

/-- Witness for C6 at the concrete sampled height 2. -/
theorem claim_C6_witness : 2 ∈ scanHeights screen_height ∧ 0 < 2 :=
  ⟨by with_unfolding_all decide,
   claim_C6_loop_excludes_zero.1 2 (by with_unfolding_all decide)⟩

/-- C7: strafe_left(d) has exactly the final position of the manual
composition turn_left(90); step_forward(d); turn_right(90), and restores
the original bearing exactly, whether or not the inner step accepts. -/
theorem claim_C7_strafe_left_decomposition (T : Trig) (m : GridMap)
    (p : Pose) (d : ℚ) :
    (strafe_left T m p d).x = (turn_right (step_forward T m (turn_left p 90) d) 90).x ∧
    (strafe_left T m p d).y = (turn_right (step_forward T m (turn_left p 90) d) 90).y ∧
    (strafe_left T m p d).bearing = p.bearing := by
  refine ⟨rfl, rfl, ?_⟩
  show (turn_right (step_forward T m (turn_left p 90) d) 90).bearing = p.bearing
  simp only [turn_right, step_forward_bearing, turn_left]
  ring

/-- C8: turning right by any angle then left by the same angle is the
identity on the bearing, in particular up to congruence modulo 360. -/
theorem claim_C8_turn_round_trip (p : Pose) (θ : ℚ) :
    ∃ k : ℤ, (turn_left (turn_right p θ) θ).bearing = p.bearing + 360 * k := by
  refine ⟨0, ?_⟩
  simp only [turn_left, turn_right, Int.cast_zero, mul_zero, add_zero]
  ring

/-- C9: ray_cast mutates neither the grid map nor the player pose: the
state it threads through the sliver loop comes out with every map cell
and every pose component equal to its value before the call. -/
theorem claim_C9_ray_cast_frame (T : Trig) (st : RCState) :
    (∀ ix iy, (ray_cast T st).1.my_map ix iy = st.my_map ix iy) ∧
    (ray_cast T st).1.player_x = st.player_x ∧
    (ray_cast T st).1.player_y = st.player_y ∧
    (ray_cast T st).1.player_bearing = st.player_bearing := by
  have h : (ray_cast T st).1 = st :=
    rayCastAux_fst T NUM_SLIVERS st (st.player_bearing - FOV / 2)
  rw [h]
  exact ⟨fun ix iy => rfl, rfl, rfl, rfl⟩

/-- C10: with a unit-norm trig oracle, for a player strictly inside the
open map square every column's scan registers a hit at some wall height
at least 2 (at the final sampled height 2 the radius is 32, which
necessarily leaves the 10x10 map), so the no-hit branch is unreachable
and no rendered sliver is the empty/background column. -/
theorem claim_C10_every_column_hits (T : Trig) (m : GridMap) (px py b : ℚ)
    (hT : ∀ θ, ((T θ).1) ^ 2 + ((T θ).2) ^ 2 = 1)
    (hx0 : 0 < px) (hx1 : px < (MAP_X_DIM : ℚ))
    (hy0 : 0 < py) (hy1 : py < (MAP_Y_DIM : ℚ)) :
    ∀ res ∈ (ray_cast T ⟨m, px, py, b⟩).2,
      ∃ r h', res = some (r, h') ∧ 2 ≤ h' := by
  intro res hres
  obtain ⟨θ', rfl⟩ :=
    rayCastAux_mem T NUM_SLIVERS ⟨m, px, py, b⟩ _ res hres
  rw [scan_column_find]
  have hmem2 : 2 ∈ scanHeights screen_height := by with_unfolding_all decide
  have hhit2 : decide (column_hit T m px py θ' 2) = true := by
    simp only [decide_eq_true_eq]
    exact column_hit_at_two T m px py θ' (hT θ') hx0 hx1 hy0 hy1
  have hS : ((scanHeights screen_height).find?
      fun h' => decide (column_hit T m px py θ' h')).isSome :=
    List.find?_isSome.2 ⟨2, hmem2, hhit2⟩
  obtain ⟨h'', hfind⟩ := Option.isSome_iff_exists.1 hS
  have hmem'' := List.mem_of_find?_eq_some hfind
  have hall : ∀ x ∈ scanHeights screen_height, 2 ≤ x := by with_unfolding_all decide
  refine ⟨radius h'', h'', ?_, hall h'' hmem''⟩
  rw [hfind]
  rfl

/-- Witness for C10: the constant unit oracle, all-walls map, player at
the center. -/
theorem claim_C10_witness :
    ∃ r h', (some ((1 : ℚ), (64 : ℕ)) : Option (ℚ × ℕ)) = some (r, h') ∧ 2 ≤ h' :=
  claim_C10_every_column_hits T_unit map_walls (11 / 2) (11 / 2) 270
    (fun θ => by norm_num [T_unit])
    (by norm_num) (by norm_num [MAP_X_DIM])
    (by norm_num) (by norm_num [MAP_Y_DIM])
    (some (1, 64)) (by with_unfolding_all decide)

end TinyRC
